import Mathlib

/-!
Verification of the typed-row decoder specified for the
`edgedb_rust_client_examples` repository.

The repository's `src/main.rs` is example/glue code driving an external
client library; the specification (§4.1) defines the one reproducible piece
of logic it exercises, the `ShapeDecoder`, whose implementation lives in the
external library. Following the spec, we embed:

* the data model (`ResultShape`, result values, `TargetRecordDescriptor`),
* the positional decoder `decode` with its error taxonomy,
* `random_user_argument` from `src/main.rs`,
* a small model of argument binding for cast queries (`executeCastQuery`).
-/

/-- Type tags for decoded values, the closed set of variants from spec §9:
string, numeric, boolean, identifier, byte sequence, composite/tuple,
object-with-fields, null. -/
inductive TypeTag where
  | string
  | numeric
  | boolean
  | identifier
  | byteSeq
  | composite
  | objectK
  | nullK
deriving DecidableEq, Repr, Inhabited

/-- Modelled from the spec: a decoded runtime value (the external library's
dynamic value enum is not in this repository). Spec §3: "Values carry their
own decoded type (string, numeric, identifier, boolean, composite, null)";
spec §9 closes the variant set and says each carries its own payload. -/
inductive ResultValue where
  | str (s : String)
  | numeric (n : Int)
  | boolean (b : Bool)
  | identifier (u : String)
  | byteSeq (bs : List Nat)
  | composite (elems : List ResultValue)
  | objectWithFields (fields : List (String × ResultValue))
  | null

instance : Inhabited ResultValue := ⟨ResultValue.null⟩

/-- The runtime type tag a value carries. -/
def ResultValue.tag : ResultValue → TypeTag
  | .str _ => .string
  | .numeric _ => .numeric
  | .boolean _ => .boolean
  | .identifier _ => .identifier
  | .byteSeq _ => .byteSeq
  | .composite _ => .composite
  | .objectWithFields _ => .objectK
  | .null => .nullK

/-- One entry of a server-reported result shape: spec §3, `ResultShape` is an
ordered sequence of `(field_name, type_tag)`. -/
structure ShapeField where
  field_name : String
  type_tag : TypeTag
deriving DecidableEq, Repr, Inhabited

/-- One entry of a statically declared target record descriptor: spec §3,
an ordered sequence of `(field_name, expected_type)`. -/
structure TargetField where
  field_name : String
  expected_type : TypeTag
deriving DecidableEq, Repr, Inhabited

abbrev ResultShape := List ShapeField

abbrev TargetRecordDescriptor := List TargetField

/-- A decoded target record: fields in declaration order, each the target
field's name paired with the coerced value (spec §4.1 step 3). -/
abbrev TargetRecord := List (String × ResultValue)

/-- The decode error taxonomy of spec §7. -/
inductive DecodeError where
  | arityMismatch
  | wrongField (unexpected : String) (expected : String)
  | typeMismatch (position : Nat) (expected : TypeTag) (actual : TypeTag)
deriving DecidableEq, Repr

/-- Modelled from the spec: the per-position loop of `decode` (spec §4.1
step 2, the external library's row decoding is not in this repository).
Walks the three sequences strictly left to right carrying the absolute
position `i`; at each position the field-name check precedes the value
coercion check, and the first failure halts decoding. Length disagreement
surfacing mid-walk (values shorter/longer than the shape) is
`ArityMismatch`, per the spec §9 open-question resolution. -/
def decodeFields : Nat → ResultShape → List ResultValue → TargetRecordDescriptor →
    Except DecodeError TargetRecord
  | _, [], [], [] => .ok []
  | i, sf :: ss, v :: vs, tf :: ts =>
    if sf.field_name ≠ tf.field_name then
      .error (.wrongField sf.field_name tf.field_name)
    else if v.tag ≠ tf.expected_type then
      .error (.typeMismatch i tf.expected_type v.tag)
    else
      match decodeFields (i + 1) ss vs ts with
      | .ok rest => .ok ((tf.field_name, v) :: rest)
      | .error e => .error e
  | _, _, _, _ => .error .arityMismatch

/-- Modelled from the spec: `decode(shape, values, target)` (spec §4.1; the
external library's implementation is not in this repository). Step 1 checks
arity of shape against target, step 2 walks positions left to right from 0. -/
def decode (shape : ResultShape) (values : List ResultValue)
    (target : TargetRecordDescriptor) : Except DecodeError TargetRecord :=
  if shape.length ≠ target.length then .error .arityMismatch
  else decodeFields 0 shape values target

example :
    decode [⟨"username", .string⟩, ⟨"id", .identifier⟩]
      [.str "User_ab12c", .identifier "u1"]
      [⟨"username", .string⟩, ⟨"id", .identifier⟩]
    = .ok [("username", .str "User_ab12c"), ("id", .identifier "u1")] := rfl

example :
    decode [⟨"id", .identifier⟩, ⟨"username", .string⟩]
      [.identifier "u1", .str "User_ab12c"]
      [⟨"username", .string⟩, ⟨"id", .identifier⟩]
    = .error (.wrongField "id" "username") := rfl

/-- The 62 characters `fastrand::alphanumeric` draws from: `a-z`, `A-Z`, `0-9`. -/
def alphanumTable : List Char :=
  "abcdefghijklmnopqrstuvwxyzABCDEFGHIJKLMNOPQRSTUVWXYZ0123456789".toList

/-- One draw of `fastrand::alphanumeric`, embedded over an abstract random
word `r`: it selects one of the 62 alphanumeric characters. -/
def alphanumeric (r : Nat) : Char :=
  alphanumTable.getD (r % 62) 'a'

/-- `random_user_argument` from `src/main.rs` lines 8-13: collects 5 draws of
`fastrand::alphanumeric` into a suffix and returns the one-element tuple
`("User_{suffix}",)`. The random generator is embedded as the stream `rng`
of its successive outputs; the Rust one-element tuple is the single string. -/
def random_user_argument (rng : Nat → Nat) : String :=
  "User_" ++ String.mk ((List.range 5).map (fun i => alphanumeric (rng i)))

example : random_user_argument (fun i => 7 * i + 3) = "User_dkryF" := rfl

/-- The client-side wire types exercised by the cast-argument examples in
`src/main.rs` lines 83-115. -/
inductive WireType where
  | int16
  | int32
  | bigint
deriving DecidableEq, Repr

/-- Modelled from the spec: a Rust-side query argument together with the
wire type its Rust type declares (the client library's binding code is not
in this repository). `src/main.rs` shows `9i16` (an `i16`), a plain `20`
(defaulting to `i32`), and `edgedb_protocol::model::BigInt::from(20i32)`,
whose representation the source asserts to be
`BigInt { negative: false, weight: 0, digits: [20] }`. -/
inductive QueryArg where
  | i16Arg (n : Int)
  | i32Arg (n : Int)
  | bigIntArg (negative : Bool) (weight : Int) (digits : List Nat)
deriving DecidableEq, Repr

/-- The wire type an argument declares for type inference. -/
def QueryArg.wireType : QueryArg → WireType
  | .i16Arg _ => .int16
  | .i32Arg _ => .int32
  | .bigIntArg _ _ _ => .bigint

/-- `BigInt::from(20i32)` as asserted by `src/main.rs` line 114. -/
def bigIntFrom20 : QueryArg := .bigIntArg false 0 [20]

/-- Modelled from the spec: executing `select <T>$0` with one bound argument
(the client library and server are not in this repository). Per the source's
comments (lines 81-82), "Arguments in queries are used as type inference for
the EdgeDB compiler, not to dynamically cast queries from the Rust side": the
argument's declared wire type must match the parameter's cast type exactly,
otherwise execution returns an error rather than a value. On a match the
bound value is returned unchanged. -/
def executeCastQuery (paramType : WireType) (arg : QueryArg) : Option QueryArg :=
  if arg.wireType = paramType then some arg else none

/-! ## Helper lemmas about `decodeFields` -/

/-- If the field walk succeeds, all three sequences have equal length and, at
every position, the field names agree and the value's tag is the declared
expected type. -/
theorem decodeFields_ok_inv (s : ResultShape) :
    ∀ (k : Nat) (v : List ResultValue) (t : TargetRecordDescriptor) (r : TargetRecord),
    decodeFields k s v t = .ok r →
    s.length = t.length ∧ v.length = s.length ∧
    ∀ i, i < s.length →
      (s.getD i default).field_name = (t.getD i default).field_name ∧
      (v.getD i default).tag = (t.getD i default).expected_type := by
  induction s with
  | nil =>
    intro k v t r h
    cases v with
    | cons v0 vs => cases t <;> simp [decodeFields] at h
    | nil =>
      cases t with
      | cons tf ts => simp [decodeFields] at h
      | nil => exact ⟨rfl, rfl, fun i hi => absurd hi (by simp)⟩
  | cons sf ss ih =>
    intro k v t r h
    cases v with
    | nil => cases t <;> simp [decodeFields] at h
    | cons v0 vs =>
      cases t with
      | nil => simp [decodeFields] at h
      | cons tf ts =>
        simp only [decodeFields] at h
        split at h
        · exact absurd h (by simp)
        · split at h
          · exact absurd h (by simp)
          · next hname htag =>
            rw [not_not] at hname htag
            cases hrec : decodeFields (k + 1) ss vs ts with
            | error e => rw [hrec] at h; exact absurd h (by simp)
            | ok rest =>
              obtain ⟨h1, h2, h3⟩ := ih (k + 1) vs ts rest hrec
              refine ⟨by simp [h1], by simp [h2], ?_⟩
              intro i hi
              cases i with
              | zero => exact ⟨hname, htag⟩
              | succ i' =>
                simp only [List.getD_cons_succ]
                exact h3 i' (by simpa using hi)

/-- If lengths agree and every position has matching field names and
assignable value tags, the field walk succeeds, producing the target names
zipped with the supplied values in order. -/
theorem decodeFields_ok_of_match (s : ResultShape) :
    ∀ (k : Nat) (v : List ResultValue) (t : TargetRecordDescriptor),
    s.length = t.length → v.length = s.length →
    (∀ i, i < s.length →
      (s.getD i default).field_name = (t.getD i default).field_name ∧
      (v.getD i default).tag = (t.getD i default).expected_type) →
    decodeFields k s v t =
      .ok (List.zipWith (fun tf v0 => (tf.field_name, v0)) t v) := by
  induction s with
  | nil =>
    intro k v t hlen hvlen _
    cases t with
    | cons tf ts => simp at hlen
    | nil =>
      cases v with
      | cons v0 vs => simp at hvlen
      | nil => rfl
  | cons sf ss ih =>
    intro k v t hlen hvlen hpt
    cases t with
    | nil => simp at hlen
    | cons tf ts =>
      cases v with
      | nil => simp at hvlen
      | cons v0 vs =>
        have h0 := hpt 0 (Nat.succ_pos _)
        simp only [List.getD_cons_zero] at h0
        have hrec := ih (k + 1) vs ts (by simpa using hlen) (by simpa using hvlen)
          (fun i hi => by
            have := hpt (i + 1) (by simpa using hi)
            simpa using this)
        simp only [decodeFields, h0.1, h0.2, ne_eq, not_true_eq_false, if_false, hrec]
        rfl

/-- If the two descriptors agree in names and the values are assignable at
every position strictly before `i`, but the field names disagree at `i`, the
field walk fails with `WrongField` carrying exactly position `i`'s names. -/
theorem decodeFields_wrongField (s : ResultShape) :
    ∀ (k : Nat) (v : List ResultValue) (t : TargetRecordDescriptor) (i : Nat),
    s.length = t.length → v.length = s.length → i < s.length →
    (∀ j, j < i → (s.getD j default).field_name = (t.getD j default).field_name) →
    (∀ j, j < i → (v.getD j default).tag = (t.getD j default).expected_type) →
    (s.getD i default).field_name ≠ (t.getD i default).field_name →
    decodeFields k s v t =
      .error (.wrongField (s.getD i default).field_name (t.getD i default).field_name) := by
  induction s with
  | nil => intro k v t i _ _ hi; exact absurd hi (by simp)
  | cons sf ss ih =>
    intro k v t i hlen hvlen hi hnames htags hne
    cases t with
    | nil => simp at hlen
    | cons tf ts =>
      cases v with
      | nil => simp at hvlen
      | cons v0 vs =>
        cases i with
        | zero =>
          simp only [List.getD_cons_zero] at hne ⊢
          simp [decodeFields, hne]
        | succ i' =>
          have h0name : sf.field_name = tf.field_name := by
            simpa using hnames 0 (Nat.succ_pos _)
          have h0tag : v0.tag = tf.expected_type := by
            simpa using htags 0 (Nat.succ_pos _)
          have hrec := ih (k + 1) vs ts i' (by simpa using hlen) (by simpa using hvlen)
            (by simpa using hi)
            (fun j hj => by simpa using hnames (j + 1) (by simpa using hj))
            (fun j hj => by simpa using htags (j + 1) (by simpa using hj))
            (by simpa using hne)
          simp only [List.getD_cons_succ]
          simp only [decodeFields, h0name, h0tag, ne_eq, not_true_eq_false, if_false, hrec]

/-- If names agree at every position up to and including `i` and the values
are assignable strictly before `i`, but the value's tag at `i` is not the
declared expected type, the field walk fails with `TypeMismatch` at absolute
position `k + i` carrying the expected type and the actual tag. -/
theorem decodeFields_typeMismatch (s : ResultShape) :
    ∀ (k : Nat) (v : List ResultValue) (t : TargetRecordDescriptor) (i : Nat),
    s.length = t.length → v.length = s.length → i < s.length →
    (∀ j, j ≤ i → (s.getD j default).field_name = (t.getD j default).field_name) →
    (∀ j, j < i → (v.getD j default).tag = (t.getD j default).expected_type) →
    (v.getD i default).tag ≠ (t.getD i default).expected_type →
    decodeFields k s v t =
      .error (.typeMismatch (k + i) (t.getD i default).expected_type
        (v.getD i default).tag) := by
  induction s with
  | nil => intro k v t i _ _ hi; exact absurd hi (by simp)
  | cons sf ss ih =>
    intro k v t i hlen hvlen hi hnames htags hne
    cases t with
    | nil => simp at hlen
    | cons tf ts =>
      cases v with
      | nil => simp at hvlen
      | cons v0 vs =>
        have h0name : sf.field_name = tf.field_name := by
          simpa using hnames 0 (Nat.zero_le _)
        cases i with
        | zero =>
          simp only [List.getD_cons_zero] at hne ⊢
          simp [decodeFields, h0name, hne]
        | succ i' =>
          have h0tag : v0.tag = tf.expected_type := by
            simpa using htags 0 (Nat.succ_pos _)
          have hrec := ih (k + 1) vs ts i' (by simpa using hlen) (by simpa using hvlen)
            (by simpa using hi)
            (fun j hj => by simpa using hnames (j + 1) (by simpa using hj))
            (fun j hj => by simpa using htags (j + 1) (by simpa using hj))
            (by simpa using hne)
          simp only [List.getD_cons_succ]
          simp only [decodeFields, h0name, h0tag, ne_eq, not_true_eq_false, if_false, hrec]
          have : k + 1 + i' = k + (i' + 1) := by omega
          rw [this]

/-- Projections of the record a successful decode builds: its field values
are the supplied values in order, its field names the target's names. -/
theorem zipWith_field_projections (t : TargetRecordDescriptor) :
    ∀ (v : List ResultValue), t.length = v.length →
    (List.zipWith (fun tf v0 => (tf.field_name, v0)) t v).map Prod.snd = v ∧
    (List.zipWith (fun tf v0 => (tf.field_name, v0)) t v).map Prod.fst =
      t.map TargetField.field_name := by
  induction t with
  | nil =>
    intro v h
    cases v with
    | nil => exact ⟨rfl, rfl⟩
    | cons _ _ => simp at h
  | cons tf ts ih =>
    intro v h
    cases v with
    | nil => simp at h
    | cons v0 vs =>
      obtain ⟨h1, h2⟩ := ih vs (by simpa using h)
      simp [h1, h2]

/-! ## Concrete scenarios from spec §8 and `src/main.rs` -/

/-- The shape of `select ... { username, id }`, matching the declared order
of `QueryableAccount`. -/
def okShape : ResultShape := [⟨"username", .string⟩, ⟨"id", .identifier⟩]

/-- Values conforming to `okShape`. -/
def okValues : List ResultValue := [.str "User_ab12c", .identifier "u1"]

/-- The descriptor derived from `QueryableAccount { username, id }`. -/
def okTarget : TargetRecordDescriptor := [⟨"username", .string⟩, ⟨"id", .identifier⟩]

/-- The record a successful decode of `okShape`/`okValues` produces. -/
def okRecord : TargetRecord := [("username", .str "User_ab12c"), ("id", .identifier "u1")]

/-- The shape of `select ... { id, username }` from `src/main.rs` lines
212-218: same field names as `okTarget` but reordered. -/
def reorderedShape : ResultShape := [⟨"id", .identifier⟩, ⟨"username", .string⟩]

/-- `okValues` reordered to conform to `reorderedShape`. -/
def reorderedValues : List ResultValue := [.identifier "u1", .str "User_ab12c"]

/-- Values whose first entry's tag does not match `okTarget`'s first
expected type. -/
def mismatchedValues : List ResultValue := [.numeric 3, .identifier "u1"]

/-! ## The claims -/

/-- Claim C1 (amended): for shapes and targets of equal length whose field
names first differ at position `i` (all names before `i` agree) and whose
values are assignable to the target's expected types at all positions before
`i`, `decode` fails with `WrongField` carrying exactly `shape[i].field_name`
as unexpected and `target[i].field_name` as expected; nothing after position
`i` influences the result. The assignability proviso is forced: the
per-position type check at an earlier position can preempt the name mismatch
(see the counterexample). -/
theorem decode_wrongField_at_first_name_mismatch
    (s : ResultShape) (v : List ResultValue) (t : TargetRecordDescriptor) (i : Nat)
    (hlen : s.length = t.length) (hvlen : v.length = s.length) (hi : i < s.length)
    (hnames : ∀ j, j < i → (s.getD j default).field_name = (t.getD j default).field_name)
    (htags : ∀ j, j < i → (v.getD j default).tag = (t.getD j default).expected_type)
    (hne : (s.getD i default).field_name ≠ (t.getD i default).field_name) :
    decode s v t =
      .error (.wrongField (s.getD i default).field_name (t.getD i default).field_name) := by
  unfold decode
  rw [if_neg (by omega)]
  exact decodeFields_wrongField s 0 v t i hlen hvlen hi hnames htags hne

/-- Instance of claim C1's amended statement at the concrete reordering
scenario of `src/main.rs` lines 210-225: shape `{id, username}` against
target `{username, id}` fails with `WrongField "id" "username"`. -/
theorem decode_wrongField_at_first_name_mismatch_witness :
    reorderedShape.length = okTarget.length ∧
    reorderedValues.length = reorderedShape.length ∧
    0 < reorderedShape.length ∧
    (∀ j, j < 0 →
      (reorderedShape.getD j default).field_name = (okTarget.getD j default).field_name) ∧
    (∀ j, j < 0 →
      (reorderedValues.getD j default).tag = (okTarget.getD j default).expected_type) ∧
    (reorderedShape.getD 0 default).field_name ≠ (okTarget.getD 0 default).field_name ∧
    decode reorderedShape reorderedValues okTarget = .error (.wrongField "id" "username") :=
  ⟨rfl, rfl, by decide, fun j hj => absurd hj (by omega), fun j hj => absurd hj (by omega),
    by decide,
    decode_wrongField_at_first_name_mismatch reorderedShape reorderedValues okTarget 0
      rfl rfl (by decide) (fun j hj => absurd hj (by omega)) (fun j hj => absurd hj (by omega))
      (by decide)⟩

/-- Claim C1 as stated is false: here the field names first differ at
position 1 (position 0 agrees), yet `decode` does not report `WrongField`
for position 1 — the value at position 0 fails the type check first, so the
result is `TypeMismatch` at position 0. -/
theorem decode_wrongField_claim_counterexample :
    ([⟨"a", TypeTag.numeric⟩, ⟨"id", TypeTag.identifier⟩] : ResultShape).length =
      ([⟨"a", TypeTag.numeric⟩, ⟨"username", TypeTag.string⟩] :
        TargetRecordDescriptor).length ∧
    ("a" : String) = "a" ∧
    ("id" : String) ≠ "username" ∧
    decode [⟨"a", .numeric⟩, ⟨"id", .identifier⟩]
        [.str "x", .identifier "u1"]
        [⟨"a", .numeric⟩, ⟨"username", .string⟩]
      = .error (.typeMismatch 0 .numeric .string) ∧
    decode [⟨"a", .numeric⟩, ⟨"id", .identifier⟩]
        [.str "x", .identifier "u1"]
        [⟨"a", .numeric⟩, ⟨"username", .string⟩]
      ≠ .error (.wrongField "id" "username") := by
  refine ⟨rfl, rfl, by decide, rfl, ?_⟩
  intro h
  exact absurd (Except.error.inj h) (by decide)

/-- Claim C2: `decode` returns a record only when shape and target have
equal length (and the values conform), and at every position the field names
agree and the value's runtime tag is the declared expected type; in every
other case the result is a `DecodeError`, never a record. -/
theorem decode_ok_requires_pointwise_match
    (s : ResultShape) (v : List ResultValue) (t : TargetRecordDescriptor) (r : TargetRecord)
    (h : decode s v t = .ok r) :
    s.length = t.length ∧ v.length = s.length ∧
    ∀ i, i < s.length →
      (s.getD i default).field_name = (t.getD i default).field_name ∧
      (v.getD i default).tag = (t.getD i default).expected_type := by
  unfold decode at h
  by_cases hlen : s.length = t.length
  · rw [if_neg (by omega)] at h
    exact decodeFields_ok_inv s 0 v t r h
  · rw [if_pos (by omega)] at h
    exact absurd h (by simp)

/-- Instance of claim C2 at the concrete matching scenario. -/
theorem decode_ok_requires_pointwise_match_witness :
    decode okShape okValues okTarget = .ok okRecord ∧
    (okShape.length = okTarget.length ∧ okValues.length = okShape.length ∧
      ∀ i, i < okShape.length →
        (okShape.getD i default).field_name = (okTarget.getD i default).field_name ∧
        (okValues.getD i default).tag = (okTarget.getD i default).expected_type) :=
  ⟨rfl, decode_ok_requires_pointwise_match okShape okValues okTarget okRecord rfl⟩

/-- Claim C3: for shapes and targets with equal names in equal order and
compatible types, and values conforming to the shape, `decode` succeeds, and
the record's fields in declaration order carry exactly the supplied values
in order (under the target's field names). -/
theorem decode_ok_of_full_match
    (s : ResultShape) (v : List ResultValue) (t : TargetRecordDescriptor)
    (hlen : s.length = t.length) (hvlen : v.length = s.length)
    (hpt : ∀ i, i < s.length →
      (s.getD i default).field_name = (t.getD i default).field_name ∧
      (v.getD i default).tag = (t.getD i default).expected_type) :
    decode s v t = .ok (List.zipWith (fun tf v0 => (tf.field_name, v0)) t v) ∧
    (List.zipWith (fun tf v0 => (tf.field_name, v0)) t v).map Prod.snd = v ∧
    (List.zipWith (fun tf v0 => (tf.field_name, v0)) t v).map Prod.fst =
      t.map TargetField.field_name := by
  have hzip := zipWith_field_projections t v (by omega)
  refine ⟨?_, hzip.1, hzip.2⟩
  unfold decode
  rw [if_neg (by omega)]
  exact decodeFields_ok_of_match s 0 v t hlen hvlen hpt

/-- Instance of claim C3 at the concrete matching scenario of spec §8. -/
theorem decode_ok_of_full_match_witness :
    (okShape.length = okTarget.length ∧ okValues.length = okShape.length ∧
      ∀ i, i < okShape.length →
        (okShape.getD i default).field_name = (okTarget.getD i default).field_name ∧
        (okValues.getD i default).tag = (okTarget.getD i default).expected_type) ∧
    (decode okShape okValues okTarget
        = .ok (List.zipWith (fun tf v0 => (tf.field_name, v0)) okTarget okValues) ∧
      (List.zipWith (fun tf v0 => (tf.field_name, v0)) okTarget okValues).map Prod.snd
        = okValues ∧
      (List.zipWith (fun tf v0 => (tf.field_name, v0)) okTarget okValues).map Prod.fst
        = okTarget.map TargetField.field_name) :=
  ⟨⟨rfl, rfl, by decide⟩,
    decode_ok_of_full_match okShape okValues okTarget rfl rfl (by decide)⟩

/-- Claim C4: whenever shape and target lengths differ, `decode` fails with
`ArityMismatch`; no hypothesis on field names or values is needed, so no
`WrongField` or `TypeMismatch` can be reported when lengths differ. -/
theorem decode_arityMismatch_of_length_ne
    (s : ResultShape) (v : List ResultValue) (t : TargetRecordDescriptor)
    (h : s.length ≠ t.length) :
    decode s v t = .error .arityMismatch := by
  unfold decode
  rw [if_pos h]

/-- Instance of claim C4: even against a shape whose first field name also
disagrees, a shorter target yields `ArityMismatch`, not `WrongField`. -/
theorem decode_arityMismatch_of_length_ne_witness :
    reorderedShape.length ≠ ([⟨"username", TypeTag.string⟩] : TargetRecordDescriptor).length ∧
    decode reorderedShape reorderedValues [⟨"username", TypeTag.string⟩]
      = .error .arityMismatch :=
  ⟨by decide,
    decode_arityMismatch_of_length_ne reorderedShape reorderedValues
      [⟨"username", TypeTag.string⟩] (by decide)⟩

/-- Claim C5: when shape and target agree in length and in every field name,
and `i` is the first position whose value's runtime tag is not the declared
expected type, `decode` fails with `TypeMismatch` carrying position `i`, the
expected type `target[i].expected_type`, and the actual tag of `values[i]`. -/
theorem decode_typeMismatch_at_first_bad_tag
    (s : ResultShape) (v : List ResultValue) (t : TargetRecordDescriptor) (i : Nat)
    (hlen : s.length = t.length) (hvlen : v.length = s.length)
    (hnames : ∀ j, j < s.length →
      (s.getD j default).field_name = (t.getD j default).field_name)
    (hi : i < s.length)
    (htags : ∀ j, j < i → (v.getD j default).tag = (t.getD j default).expected_type)
    (hne : (v.getD i default).tag ≠ (t.getD i default).expected_type) :
    decode s v t =
      .error (.typeMismatch i (t.getD i default).expected_type (v.getD i default).tag) := by
  unfold decode
  rw [if_neg (by omega)]
  have h := decodeFields_typeMismatch s 0 v t i hlen hvlen hi
    (fun j hj => hnames j (by omega)) htags hne
  simpa using h

/-- Instance of claim C5: a numeric value in the first position of a target
expecting a string fails with `TypeMismatch` at position 0. -/
theorem decode_typeMismatch_at_first_bad_tag_witness :
    okShape.length = okTarget.length ∧
    mismatchedValues.length = okShape.length ∧
    (∀ j, j < okShape.length →
      (okShape.getD j default).field_name = (okTarget.getD j default).field_name) ∧
    0 < okShape.length ∧
    (∀ j, j < 0 →
      (mismatchedValues.getD j default).tag = (okTarget.getD j default).expected_type) ∧
    (mismatchedValues.getD 0 default).tag ≠ (okTarget.getD 0 default).expected_type ∧
    decode okShape mismatchedValues okTarget
      = .error (.typeMismatch 0 .string .numeric) :=
  ⟨rfl, rfl, by decide, by decide, fun j hj => absurd hj (by omega), by decide,
    decode_typeMismatch_at_first_bad_tag okShape mismatchedValues okTarget 0
      rfl rfl (by decide) (by decide) (fun j hj => absurd hj (by omega)) (by decide)⟩

/-- Claim C6: `decode` is a pure function of its three inputs — two calls on
identical inputs yield identical results; in this embedding inputs are
immutable values, so no call can mutate them. -/
theorem decode_deterministic
    (s : ResultShape) (v : List ResultValue) (t : TargetRecordDescriptor)
    (r₁ r₂ : Except DecodeError TargetRecord)
    (h₁ : decode s v t = r₁) (h₂ : decode s v t = r₂) : r₁ = r₂ := by
  rw [← h₁, ← h₂]

/-- Instance of claim C6 at the concrete matching scenario. -/
theorem decode_deterministic_witness :
    decode okShape okValues okTarget = .ok okRecord ∧
    decode okShape okValues okTarget = .ok okRecord ∧
    (.ok okRecord : Except DecodeError TargetRecord) = .ok okRecord :=
  ⟨rfl, rfl, decode_deterministic okShape okValues okTarget (.ok okRecord) (.ok okRecord)
    rfl rfl⟩

/-- Every draw of `fastrand::alphanumeric` is an alphanumeric character. -/
theorem alphanumeric_isAlphanum (r : Nat) : (alphanumeric r).isAlphanum = true := by
  have h : r % 62 < 62 := Nat.mod_lt _ (by norm_num)
  have hall : ∀ k, k < 62 → (alphanumTable.getD k 'a').isAlphanum = true := by decide
  exact hall _ h

/-- Claim C8: for every sequence of characters the random generator
produces, `random_user_argument` returns the single string consisting of
`"User_"` followed by exactly 5 alphanumeric characters, total length 10. -/
theorem random_user_argument_shape (rng : Nat → Nat) :
    (random_user_argument rng).length = 10 ∧
    (random_user_argument rng).toList.take 5 = "User_".toList ∧
    ((random_user_argument rng).toList.drop 5).length = 5 ∧
    ∀ c ∈ (random_user_argument rng).toList.drop 5, c.isAlphanum = true := by
  have hdata : (random_user_argument rng).toList =
      "User_".toList ++ (List.range 5).map (fun i => alphanumeric (rng i)) := rfl
  have hlen5 : ("User_".toList).length = 5 := rfl
  refine ⟨?_, ?_, ?_, ?_⟩
  · show (random_user_argument rng).toList.length = 10
    rw [hdata, List.length_append, hlen5]
    simp
  · rw [hdata, List.take_left' hlen5]
  · rw [hdata, List.drop_left' hlen5]
    simp
  · intro c hc
    rw [hdata, List.drop_left' hlen5] at hc
    obtain ⟨i, _, rfl⟩ := List.mem_map.mp hc
    exact alphanumeric_isAlphanum (rng i)

/-- Claim C9: when the shape and the target disagree at both positions (here
`"id"` against `"username"` and `"username"` against `"id"`), decode reports
only the earliest mismatch, and the error carries the two field names and no
position index — exactly `WrongField "id" "username"`. -/
theorem decode_wrongField_reports_earliest :
    (("id" : String) ≠ "username" ∧ ("username" : String) ≠ "id") ∧
    decode reorderedShape reorderedValues okTarget
      = .error (.wrongField "id" "username") :=
  ⟨by decide, rfl⟩

/-- Claim C10: arguments are used for type inference, not coerced to the
parameter's declared cast type: an `i16` bound to `<int32>` errors, a plain
integer (Rust `i32`) bound to `<bigint>` errors, while the explicitly
constructed `BigInt` argument for `<bigint>` succeeds and round-trips. -/
theorem cast_argument_type_inference :
    executeCastQuery .int32 (.i16Arg 9) = none ∧
    executeCastQuery .bigint (.i32Arg 20) = none ∧
    executeCastQuery .bigint bigIntFrom20 = some bigIntFrom20 :=
  ⟨rfl, rfl, rfl⟩
